import Mathlib

/-!
Shallow embedding of the Cloudflare Workers LLM chat template
(`src/index.ts`): request routing (`fetch`), the chat handler
(`handleChatRequest`), the background pump that republishes the inference
provider's output as newline-delimited JSON events, and the streaming
UTF-8 text decoder the pump uses on byte chunks.
-/

namespace CfChat

/-! ## JSON serialization of the emitted values

`JSON.stringify` applied to the objects the handler builds: a string value
is quoted with the standard JSON escapes, and an object is the brace-wrapped
comma-separated list of `"key":value` pairs, in insertion order. -/

/-- One character of a JSON string literal, as `JSON.stringify` escapes it. -/
def jsonEscapeChar (c : Char) : String :=
  if c = '"' then "\\\""
  else if c = '\\' then "\\\\"
  else if c = '\x08' then "\\b"
  else if c = '\x0c' then "\\f"
  else if c = '\n' then "\\n"
  else if c = '\r' then "\\r"
  else if c = '\t' then "\\t"
  else if c.toNat < 0x20 then
    "\\u00" ++ String.singleton (Nat.digitChar (c.toNat / 16)) ++
      String.singleton (Nat.digitChar (c.toNat % 16))
  else String.singleton c

/-- Serialization `JSON.stringify` of a string value. -/
def jsonQuote (s : String) : String :=
  "\"" ++ String.join (s.data.map jsonEscapeChar) ++ "\""

/-- Serialization `JSON.stringify` of an object whose fields are all string-valued,
in insertion order. -/
def jsonObject (fields : List (String × String)) : String :=
  "\x7b" ++
    String.intercalate "," (fields.map (fun kv => jsonQuote kv.1 ++ ":" ++ jsonQuote kv.2)) ++
  "\x7d"

/-- The event the pump writes for one piece of text:
`JSON.stringify({ response: text }) + "\n"` (src/index.ts lines 94-96,
101-103). -/
def outboundEvent (text : String) : String :=
  jsonObject [("response", text)] ++ "\n"

/-! ## Streaming UTF-8 decoder

Modelled from the spec: the handler decodes each provider byte chunk with a
single `TextDecoder` instance via `decoder.decode(value, { stream: true })`
(src/index.ts lines 85, 91); the decoder itself is a platform API whose code
is not in the repository. The spec requires that "a decoder must retain
partial-sequence state between calls", which is the WHATWG `TextDecoder`
("utf-8", non-fatal) behaviour embedded here: a byte-at-a-time automaton
whose state holds the partially decoded code point of an unfinished
multi-byte sequence, emitting U+FFFD on malformed input. -/

/-- Modelled from the spec: the retained state of the platform `TextDecoder`
("a decoder must retain partial-sequence state between calls"): the partially
assembled code point, how many continuation bytes are still needed and how
many have been seen, and the admissible range for the next byte. -/
structure DecoderState where
  codepoint : Nat
  bytesNeeded : Nat
  bytesSeen : Nat
  lowerBoundary : Nat
  upperBoundary : Nat
  deriving Repr, DecidableEq

/-- Modelled from the spec: the decoder state between well-formed sequences. -/
def DecoderState.init : DecoderState :=
  ⟨0, 0, 0, 0x80, 0xBF⟩

/-- Modelled from the spec: the Unicode replacement character U+FFFD the
decoder emits on malformed input. -/
def replacementChar : Char :=
  Char.ofNat 0xFFFD

/-- Modelled from the spec: one decoder step on a byte when no multi-byte
sequence is pending. -/
def utf8StepFresh (b : Nat) : List Char × DecoderState :=
  if b ≤ 0x7F then ([Char.ofNat b], DecoderState.init)
  else if 0xC2 ≤ b ∧ b ≤ 0xDF then ([], ⟨b % 32, 1, 0, 0x80, 0xBF⟩)
  else if 0xE0 ≤ b ∧ b ≤ 0xEF then
    ([], ⟨b % 16, 2, 0, if b = 0xE0 then 0xA0 else 0x80, if b = 0xED then 0x9F else 0xBF⟩)
  else if 0xF0 ≤ b ∧ b ≤ 0xF4 then
    ([], ⟨b % 8, 3, 0, if b = 0xF0 then 0x90 else 0x80, if b = 0xF4 then 0x8F else 0xBF⟩)
  else ([replacementChar], DecoderState.init)

/-- Modelled from the spec: the WHATWG UTF-8 decode step on one byte. A byte that
breaks a pending sequence emits U+FFFD and is then reprocessed fresh. -/
def utf8Step (s : DecoderState) (b : Nat) : List Char × DecoderState :=
  if s.bytesNeeded = 0 then utf8StepFresh b
  else if s.lowerBoundary ≤ b ∧ b ≤ s.upperBoundary then
    let cp := s.codepoint * 64 + b % 64
    if s.bytesSeen + 1 = s.bytesNeeded then ([Char.ofNat cp], DecoderState.init)
    else ([], ⟨cp, s.bytesNeeded, s.bytesSeen + 1, 0x80, 0xBF⟩)
  else
    let fresh := utf8StepFresh b
    (replacementChar :: fresh.1, fresh.2)

/-- Modelled from the spec: the decoder run over a byte sequence, returning
the emitted characters
and the retained state. -/
def utf8DecodeBytes (s : DecoderState) : List Nat → List Char × DecoderState
  | [] => ([], s)
  | b :: bs =>
    let st := utf8Step s b
    let rest := utf8DecodeBytes st.2 bs
    (st.1 ++ rest.1, rest.2)

/-- Modelled from the spec: `decoder.decode(value, \x7b stream: true \x7d)` of the
platform `TextDecoder` API, absent from the repository: decode one chunk, keeping any
trailing incomplete sequence in the returned state (never flushed by the
handler). -/
def textDecoderDecodeStream (s : DecoderState) (bytes : List Nat) : String × DecoderState :=
  let r := utf8DecodeBytes s bytes
  (String.mk r.1, r.2)

/-- Modelled from the spec: UTF-8 encoding of one character (the platform
`TextEncoder` on a one-character string). -/
def utf8EncodeChar (c : Char) : List Nat :=
  if c.toNat ≤ 0x7F then [c.toNat]
  else if c.toNat ≤ 0x7FF then [0xC0 + c.toNat / 64, 0x80 + c.toNat % 64]
  else if c.toNat ≤ 0xFFFF then
    [0xE0 + c.toNat / 4096, 0x80 + c.toNat / 64 % 64, 0x80 + c.toNat % 64]
  else
    [0xF0 + c.toNat / 262144, 0x80 + c.toNat / 4096 % 64,
      0x80 + c.toNat / 64 % 64, 0x80 + c.toNat % 64]

/-- Modelled from the spec: UTF-8 encoding of a string
(`TextEncoder.encode`, a platform API). -/
def utf8Encode (s : String) : List Nat :=
  (s.data.map utf8EncodeChar).flatten

/-! ## Data model and configuration constants (src/index.ts lines 10-18)

`ChatMessage` is declared in `./types` (not in the repository snapshot); at
runtime the handler only ever reads `role`, performs no validation, and
forwards messages as-is, so a message is embedded as its `role` and
`content` strings with `role` unrestricted. -/

/-- Modelled from the spec: `ChatMessage` is declared in `./types`, a file
absent from the snapshot; the spec gives it `role` and `content` text
fields. The declared role enum is a compile-time TypeScript annotation the
runtime erases, so `role` is an arbitrary string here, as it is in the
running handler (nothing checks the enum). -/
structure ChatMessage where
  role : String
  content : String
  deriving Repr, DecidableEq

/-- Constant `MODEL_ID = "@cf/openai/gpt-oss-120b"` (src/index.ts line 14). -/
def MODEL_ID : String :=
  "@cf/openai/gpt-oss-120b"

/-- Constant `SYSTEM_PROMPT`, the default system prompt (src/index.ts lines 17-18). -/
def SYSTEM_PROMPT : String :=
  "You are a helpful, friendly assistant. Provide concise and accurate responses."

/-- The argument object of `env.AI.run(MODEL_ID, {...})`
(src/index.ts lines 68-72). -/
structure InferenceRequest where
  modelId : String
  instructions : String
  input : List ChatMessage
  stream : Bool
  deriving Repr, DecidableEq

/-- Filter `messages.filter((msg) => msg.role !== "system")`
(src/index.ts line 65). -/
def userMessages (messages : List ChatMessage) : List ChatMessage :=
  messages.filter (fun msg => msg.role != "system")

/-- The inference request the handler builds from the parsed messages
(src/index.ts lines 68-72). -/
def chatInferenceRequest (messages : List ChatMessage) : InferenceRequest :=
  { modelId := MODEL_ID
    instructions := SYSTEM_PROMPT
    input := userMessages messages
    stream := true }

/-! ## The provider's output and the background pump
(src/index.ts lines 74-110)

`aiResponse` is probed once: an object with a `getReader` member is treated
as a `ReadableStream` of byte chunks (the stream variant); anything else is
the whole variant, passed through if it is a string and otherwise serialized
with `JSON.stringify` (embedded as the value's serialization text, since the
value itself is opaque). -/

/-- The runtime shapes of `aiResponse`: a readable stream of byte chunks, a
plain string, or some other value carried as its `JSON.stringify` text. -/
inductive AIResponse where
  | stream (chunks : List (List Nat))
  | wholeString (s : String)
  | wholeOther (serialized : String)
  deriving Repr, DecidableEq

/-- How the provider's reader ends after yielding its chunks: a `done`
signal, or `reader.read()` raising. -/
inductive ReadEnd where
  | done
  | raise
  deriving Repr, DecidableEq

/-- An operation the producer task performs on the sink: writing the UTF-8
encoding of an event string, or closing the writer. -/
inductive SinkOp where
  | write (event : String)
  | close
  deriving Repr, DecidableEq

/-- The texts obtained by decoding successive chunks with the one decoder
instance, threading its state (src/index.ts lines 85, 91). -/
def decodeChunkTexts (st : DecoderState) : List (List Nat) → List String
  | [] => []
  | v :: rest =>
    let r := textDecoderDecodeStream st v
    r.1 :: decodeChunkTexts r.2 rest

/-- The successful writes of the stream-variant pump loop
(src/index.ts lines 87-97): each chunk is decoded and written as one
outbound event; `writeOk i` says whether the i-th `writer.write` resolves —
a rejected write raises, is caught, and ends the loop. -/
def pumpStreamOps (st : DecoderState) (chunks : List (List Nat)) (i : Nat)
    (writeOk : Nat → Bool) : List SinkOp :=
  match chunks with
  | [] => []
  | v :: rest =>
    let r := textDecoderDecodeStream st v
    if writeOk i then
      SinkOp.write (outboundEvent r.1) :: pumpStreamOps r.2 rest (i + 1) writeOk
    else []

/-- The writes the producer task performs before reaching `finally`
(src/index.ts lines 80-106). After the listed chunks, `reader.read()`
either signals done or raises (`endB`); both leave the `try` block, so the
writes do not depend on it. An exception anywhere is caught and logged. -/
def producerOps (resp : AIResponse) (endB : ReadEnd) (writeOk : Nat → Bool) :
    List SinkOp :=
  match resp, endB with
  | .stream chunks, _ => pumpStreamOps DecoderState.init chunks 0 writeOk
  | .wholeString s, _ => if writeOk 0 then [SinkOp.write (outboundEvent s)] else []
  | .wholeOther ser, _ => if writeOk 0 then [SinkOp.write (outboundEvent ser)] else []

/-- The full trace of sink operations of the producer task: its writes,
then the `finally { await writer.close() }` (src/index.ts lines 107-109). -/
def producerTrace (resp : AIResponse) (endB : ReadEnd) (writeOk : Nat → Bool) :
    List SinkOp :=
  producerOps resp endB writeOk ++ [SinkOp.close]

/-- The text whose UTF-8 encoding is the byte content a sink trace writes:
the written events in order (`close` contributes nothing). -/
def traceBody (t : List SinkOp) : String :=
  String.join (t.map (fun op => match op with | .write e => e | .close => ""))

/-! ## HTTP responses, the chat handler, and routing -/

/-- An HTTP response: status, body text, and explicitly set headers. -/
structure HttpResponse where
  status : Nat
  body : String
  headers : List (String × String)
  deriving Repr, DecidableEq

/-- The body of the catch-all error response
(src/index.ts lines 122-126): `JSON.stringify({ error: ..., details })`
where `details` is the failure's message text. -/
def errorBody (details : String) : String :=
  jsonObject [("error", "Failed to process request"), ("details", details)]

/-- The response of the catch-all error path (src/index.ts lines 122-131). -/
def errorResponse (details : String) : HttpResponse :=
  { status := 500
    body := errorBody details
    headers := [("content-type", "application/json")] }

/-- The streamed success response (src/index.ts lines 112-118): status
defaults to 200, the body is what the producer task writes to the sink. -/
def streamResponse (t : List SinkOp) : HttpResponse :=
  { status := 200
    body := traceBody t
    headers := [("content-type", "text/event-stream"),
                ("cache-control", "no-cache"),
                ("connection", "keep-alive")] }

/-- The outcome of `await request.json()` and the destructuring
`const { messages = [] } = ...` (src/index.ts lines 60-62): a raised parse
error, a body without a `messages` field, or the field's value. -/
def ParsedBody : Type :=
  Except String (Option (List ChatMessage))

/-- The observable result of `handleChatRequest`: the returned response and
the inference requests issued to `env.AI.run`. -/
structure HandlerResult where
  response : HttpResponse
  providerCalls : List InferenceRequest
  deriving Repr, DecidableEq

/-- Handler `handleChatRequest` (src/index.ts lines 55-133): parse the body, filter
out system messages, call the provider, hand the sink's readable side back
as the response while the producer task pumps; any exception before the
response is constructed is caught and turned into the 500 JSON error. The
provider is a function that may raise (`Except.error`); `endB` and
`writeOk` are the environment's choices of how reads end and which writes
resolve. -/
def handleChatRequest (parsed : ParsedBody)
    (provider : InferenceRequest → Except String AIResponse)
    (endB : ReadEnd) (writeOk : Nat → Bool) : HandlerResult :=
  match parsed with
  | .error e => ⟨errorResponse e, []⟩
  | .ok mopt =>
    let req := chatInferenceRequest (mopt.getD [])
    match provider req with
    | .error e => ⟨errorResponse e, [req]⟩
    | .ok aiResponse => ⟨streamResponse (producerTrace aiResponse endB writeOk), [req]⟩

/-- What the worker's `fetch` dispatches to (src/index.ts lines 24-49):
static assets, the chat handler, or a direct response. -/
inductive FetchResult where
  | assets
  | chat
  | response (r : HttpResponse)
  deriving Repr, DecidableEq

/-- Modelled from the spec: `String.prototype.startsWith` (a runtime primitive),
embedded over the character lists. -/
def strStartsWith (s pre : String) : Bool :=
  pre.data.isPrefixOf s.data

/-- The routing of `fetch` (src/index.ts lines 29-48). Only the `.chat`
result goes on to read the request body. -/
def workerFetch (method pathname : String) : FetchResult :=
  if pathname = "/" || !(strStartsWith pathname "/api/") then .assets
  else if pathname = "/api/chat" then
    if method = "POST" then .chat
    else .response ⟨405, "Method not allowed", []⟩
  else .response ⟨404, "Not found", []⟩

/-! ## Spec-side definitions for refinement comparisons -/

/-- The spec's filter, written from its words: for all conversations `C`,
`filtered(C) == [m for m in C if m.role != system]`. -/
def specFiltered (C : List ChatMessage) : List ChatMessage :=
  C.filter (fun m => decide (m.role ≠ "system"))

/-! ## Decoder lemmas -/

lemma utf8Step_init (b : Nat) : utf8Step DecoderState.init b = utf8StepFresh b := rfl

lemma utf8StepFresh_ascii (b : Nat) (h : b ≤ 0x7F) :
    utf8StepFresh b = ([Char.ofNat b], DecoderState.init) := by
  unfold utf8StepFresh
  rw [if_pos h]

lemma utf8StepFresh_lead2 (b : Nat) (h1 : 0xC2 ≤ b) (h2 : b ≤ 0xDF) :
    utf8StepFresh b = ([], ⟨b % 32, 1, 0, 0x80, 0xBF⟩) := by
  unfold utf8StepFresh
  rw [if_neg (by omega), if_pos ⟨h1, h2⟩]

lemma utf8StepFresh_lead3 (b : Nat) (h1 : 0xE0 ≤ b) (h2 : b ≤ 0xEF) :
    utf8StepFresh b = ([], ⟨b % 16, 2, 0,
      if b = 0xE0 then 0xA0 else 0x80, if b = 0xED then 0x9F else 0xBF⟩) := by
  unfold utf8StepFresh
  rw [if_neg (by omega), if_neg (by omega), if_pos ⟨h1, h2⟩]

lemma utf8StepFresh_lead4 (b : Nat) (h1 : 0xF0 ≤ b) (h2 : b ≤ 0xF4) :
    utf8StepFresh b = ([], ⟨b % 8, 3, 0,
      if b = 0xF0 then 0x90 else 0x80, if b = 0xF4 then 0x8F else 0xBF⟩) := by
  unfold utf8StepFresh
  rw [if_neg (by omega), if_neg (by omega), if_neg (by omega), if_pos ⟨h1, h2⟩]

lemma utf8Step_cont (cp need seen lo hi b : Nat) (hn : need ≠ 0)
    (h1 : lo ≤ b) (h2 : b ≤ hi) :
    utf8Step ⟨cp, need, seen, lo, hi⟩ b =
      if seen + 1 = need then ([Char.ofNat (cp * 64 + b % 64)], DecoderState.init)
      else ([], ⟨cp * 64 + b % 64, need, seen + 1, 0x80, 0xBF⟩) := by
  unfold utf8Step
  rw [if_neg hn, if_pos ⟨h1, h2⟩]

lemma utf8Decode_enc1 (n : Nat) (h : n ≤ 0x7F) :
    utf8DecodeBytes DecoderState.init [n] = ([Char.ofNat n], DecoderState.init) := by
  simp [utf8DecodeBytes, utf8Step_init, utf8StepFresh_ascii n h]

lemma utf8Decode_enc2 (n : Nat) (h1 : 0x80 ≤ n) (h2 : n ≤ 0x7FF) :
    utf8DecodeBytes DecoderState.init [0xC0 + n / 64, 0x80 + n % 64] =
      ([Char.ofNat n], DecoderState.init) := by
  have e1 : (0xC0 + n / 64) % 32 = n / 64 := by omega
  have hs2 : utf8Step ⟨n / 64, 1, 0, 0x80, 0xBF⟩ (0x80 + n % 64) =
      ([Char.ofNat n], DecoderState.init) := by
    rw [utf8Step_cont (n / 64) 1 0 0x80 0xBF (0x80 + n % 64)
      (by omega) (by omega) (by omega), if_pos rfl]
    have e2 : n / 64 * 64 + (0x80 + n % 64) % 64 = n := by omega
    rw [e2]
  simp [utf8DecodeBytes, utf8Step_init,
    utf8StepFresh_lead2 (0xC0 + n / 64) (by omega) (by omega), e1, hs2]

lemma utf8Decode_enc3 (n : Nat) (h1 : 0x800 ≤ n) (h2 : n ≤ 0xFFFF)
    (hv : n < 0xD800 ∨ 0xDFFF < n) :
    utf8DecodeBytes DecoderState.init
        [0xE0 + n / 4096, 0x80 + n / 64 % 64, 0x80 + n % 64] =
      ([Char.ofNat n], DecoderState.init) := by
  have e1 : (0xE0 + n / 4096) % 16 = n / 4096 := by omega
  have hs1 : utf8StepFresh (0xE0 + n / 4096) = ([], ⟨n / 4096, 2, 0,
      if 0xE0 + n / 4096 = 0xE0 then 0xA0 else 0x80,
      if 0xE0 + n / 4096 = 0xED then 0x9F else 0xBF⟩) := by
    rw [utf8StepFresh_lead3 (0xE0 + n / 4096) (by omega) (by omega), e1]
  have hlo : (if 0xE0 + n / 4096 = 0xE0 then (0xA0 : Nat) else 0x80) ≤
      0x80 + n / 64 % 64 := by
    split_ifs with h <;> omega
  have hhi : 0x80 + n / 64 % 64 ≤
      (if 0xE0 + n / 4096 = 0xED then (0x9F : Nat) else 0xBF) := by
    split_ifs with h <;> omega
  have e2 : (0x80 + n / 64 % 64) % 64 = n / 64 % 64 := by omega
  have hs2 : utf8Step ⟨n / 4096, 2, 0,
      if 0xE0 + n / 4096 = 0xE0 then 0xA0 else 0x80,
      if 0xE0 + n / 4096 = 0xED then 0x9F else 0xBF⟩ (0x80 + n / 64 % 64) =
      ([], ⟨n / 4096 * 64 + n / 64 % 64, 2, 1, 0x80, 0xBF⟩) := by
    rw [utf8Step_cont (n / 4096) 2 0 _ _ (0x80 + n / 64 % 64) (by omega) hlo hhi,
      if_neg (by omega), e2]
  have e3 : (n / 4096 * 64 + n / 64 % 64) * 64 + (0x80 + n % 64) % 64 = n := by omega
  have hs3 : utf8Step ⟨n / 4096 * 64 + n / 64 % 64, 2, 1, 0x80, 0xBF⟩ (0x80 + n % 64) =
      ([Char.ofNat n], DecoderState.init) := by
    rw [utf8Step_cont (n / 4096 * 64 + n / 64 % 64) 2 1 0x80 0xBF (0x80 + n % 64)
      (by omega) (by omega) (by omega), if_pos rfl, e3]
  simp only [utf8DecodeBytes, utf8Step_init, hs1, hs2, hs3,
    List.append_nil, List.nil_append]

lemma utf8Decode_enc4 (n : Nat) (h1 : 0x10000 ≤ n) (h2 : n ≤ 0x10FFFF) :
    utf8DecodeBytes DecoderState.init
        [0xF0 + n / 262144, 0x80 + n / 4096 % 64, 0x80 + n / 64 % 64, 0x80 + n % 64] =
      ([Char.ofNat n], DecoderState.init) := by
  have e1 : (0xF0 + n / 262144) % 8 = n / 262144 := by omega
  have hs1 : utf8StepFresh (0xF0 + n / 262144) = ([], ⟨n / 262144, 3, 0,
      if 0xF0 + n / 262144 = 0xF0 then 0x90 else 0x80,
      if 0xF0 + n / 262144 = 0xF4 then 0x8F else 0xBF⟩) := by
    rw [utf8StepFresh_lead4 (0xF0 + n / 262144) (by omega) (by omega), e1]
  have hlo : (if 0xF0 + n / 262144 = 0xF0 then (0x90 : Nat) else 0x80) ≤
      0x80 + n / 4096 % 64 := by
    split_ifs with h <;> omega
  have hhi : 0x80 + n / 4096 % 64 ≤
      (if 0xF0 + n / 262144 = 0xF4 then (0x8F : Nat) else 0xBF) := by
    split_ifs with h <;> omega
  have e2 : (0x80 + n / 4096 % 64) % 64 = n / 4096 % 64 := by omega
  have hs2 : utf8Step ⟨n / 262144, 3, 0,
      if 0xF0 + n / 262144 = 0xF0 then 0x90 else 0x80,
      if 0xF0 + n / 262144 = 0xF4 then 0x8F else 0xBF⟩ (0x80 + n / 4096 % 64) =
      ([], ⟨n / 262144 * 64 + n / 4096 % 64, 3, 1, 0x80, 0xBF⟩) := by
    rw [utf8Step_cont (n / 262144) 3 0 _ _ (0x80 + n / 4096 % 64) (by omega) hlo hhi,
      if_neg (by omega), e2]
  have e3 : (0x80 + n / 64 % 64) % 64 = n / 64 % 64 := by omega
  have hs3 : utf8Step ⟨n / 262144 * 64 + n / 4096 % 64, 3, 1, 0x80, 0xBF⟩
      (0x80 + n / 64 % 64) =
      ([], ⟨(n / 262144 * 64 + n / 4096 % 64) * 64 + n / 64 % 64, 3, 2, 0x80, 0xBF⟩) := by
    rw [utf8Step_cont (n / 262144 * 64 + n / 4096 % 64) 3 1 0x80 0xBF
      (0x80 + n / 64 % 64) (by omega) (by omega) (by omega), if_neg (by omega), e3]
  have e4 : ((n / 262144 * 64 + n / 4096 % 64) * 64 + n / 64 % 64) * 64 +
      (0x80 + n % 64) % 64 = n := by omega
  have hs4 : utf8Step ⟨(n / 262144 * 64 + n / 4096 % 64) * 64 + n / 64 % 64, 3, 2,
      0x80, 0xBF⟩ (0x80 + n % 64) = ([Char.ofNat n], DecoderState.init) := by
    rw [utf8Step_cont ((n / 262144 * 64 + n / 4096 % 64) * 64 + n / 64 % 64) 3 2
      0x80 0xBF (0x80 + n % 64) (by omega) (by omega) (by omega), if_pos rfl, e4]
  simp only [utf8DecodeBytes, utf8Step_init, hs1, hs2, hs3, hs4,
    List.append_nil, List.nil_append]

lemma utf8Decode_encodeChar (c : Char) :
    utf8DecodeBytes DecoderState.init (utf8EncodeChar c) = ([c], DecoderState.init) := by
  have hv : c.toNat < 0xD800 ∨ (0xDFFF < c.toNat ∧ c.toNat < 0x110000) := c.valid
  by_cases h1 : c.toNat ≤ 0x7F
  · have he : utf8EncodeChar c = [c.toNat] := by
      unfold utf8EncodeChar
      rw [if_pos h1]
    rw [he, utf8Decode_enc1 _ h1, Char.ofNat_toNat]
  · by_cases h2 : c.toNat ≤ 0x7FF
    · have he : utf8EncodeChar c = [0xC0 + c.toNat / 64, 0x80 + c.toNat % 64] := by
        unfold utf8EncodeChar
        rw [if_neg h1, if_pos h2]
      rw [he, utf8Decode_enc2 _ (by omega) h2, Char.ofNat_toNat]
    · by_cases h3 : c.toNat ≤ 0xFFFF
      · have he : utf8EncodeChar c =
            [0xE0 + c.toNat / 4096, 0x80 + c.toNat / 64 % 64, 0x80 + c.toNat % 64] := by
          unfold utf8EncodeChar
          rw [if_neg h1, if_neg h2, if_pos h3]
        rw [he, utf8Decode_enc3 _ (by omega) h3 (by omega), Char.ofNat_toNat]
      · have he : utf8EncodeChar c =
            [0xF0 + c.toNat / 262144, 0x80 + c.toNat / 4096 % 64,
              0x80 + c.toNat / 64 % 64, 0x80 + c.toNat % 64] := by
          unfold utf8EncodeChar
          rw [if_neg h1, if_neg h2, if_neg h3]
        rw [he, utf8Decode_enc4 _ (by omega) (by omega), Char.ofNat_toNat]

lemma utf8DecodeBytes_append (st : DecoderState) (xs ys : List Nat) :
    utf8DecodeBytes st (xs ++ ys) =
      ((utf8DecodeBytes st xs).1 ++
          (utf8DecodeBytes (utf8DecodeBytes st xs).2 ys).1,
        (utf8DecodeBytes (utf8DecodeBytes st xs).2 ys).2) := by
  induction xs generalizing st with
  | nil => simp [utf8DecodeBytes]
  | cons b bs ih => simp [utf8DecodeBytes, ih]

lemma utf8Decode_encode_list (cs : List Char) :
    utf8DecodeBytes DecoderState.init ((cs.map utf8EncodeChar).flatten) =
      (cs, DecoderState.init) := by
  induction cs with
  | nil => rfl
  | cons c rest ih =>
    rw [List.map_cons, List.flatten_cons, utf8DecodeBytes_append,
      utf8Decode_encodeChar, ih]
    rfl

lemma utf8Decode_utf8Encode (s : String) :
    utf8DecodeBytes DecoderState.init (utf8Encode s) = (s.data, DecoderState.init) :=
  utf8Decode_encode_list s.data

lemma decodeChunkTexts_flatten (st : DecoderState) (chunks : List (List Nat)) :
    ((decodeChunkTexts st chunks).map String.data).flatten =
      (utf8DecodeBytes st chunks.flatten).1 := by
  induction chunks generalizing st with
  | nil => simp [decodeChunkTexts, utf8DecodeBytes]
  | cons v rest ih =>
    simp [decodeChunkTexts, textDecoderDecodeStream, utf8DecodeBytes_append, ih]

lemma join_decodeChunkTexts (st : DecoderState) (chunks : List (List Nat)) :
    String.join (decodeChunkTexts st chunks) =
      String.mk (utf8DecodeBytes st chunks.flatten).1 := by
  rw [String.join_eq]
  exact congrArg String.mk (decodeChunkTexts_flatten st chunks)

lemma utf8DecodeTake1_2 (n : Nat) (h1 : 0x80 ≤ n) (h2 : n ≤ 0x7FF) :
    utf8DecodeBytes DecoderState.init [0xC0 + n / 64] =
      ([], ⟨n / 64, 1, 0, 0x80, 0xBF⟩) := by
  have e1 : (0xC0 + n / 64) % 32 = n / 64 := by omega
  simp only [utf8DecodeBytes, utf8Step_init,
    utf8StepFresh_lead2 (0xC0 + n / 64) (by omega) (by omega), e1,
    List.append_nil, List.nil_append]

lemma utf8DecodeTake1_3 (n : Nat) (h1 : 0x800 ≤ n) (h2 : n ≤ 0xFFFF) :
    utf8DecodeBytes DecoderState.init [0xE0 + n / 4096] =
      ([], ⟨n / 4096, 2, 0,
        if 0xE0 + n / 4096 = 0xE0 then 0xA0 else 0x80,
        if 0xE0 + n / 4096 = 0xED then 0x9F else 0xBF⟩) := by
  have e1 : (0xE0 + n / 4096) % 16 = n / 4096 := by omega
  simp only [utf8DecodeBytes, utf8Step_init,
    utf8StepFresh_lead3 (0xE0 + n / 4096) (by omega) (by omega), e1,
    List.append_nil, List.nil_append]

lemma utf8DecodeTake2_3 (n : Nat) (h1 : 0x800 ≤ n) (h2 : n ≤ 0xFFFF)
    (hv : n < 0xD800 ∨ 0xDFFF < n) :
    utf8DecodeBytes DecoderState.init [0xE0 + n / 4096, 0x80 + n / 64 % 64] =
      ([], ⟨n / 4096 * 64 + n / 64 % 64, 2, 1, 0x80, 0xBF⟩) := by
  have e1 : (0xE0 + n / 4096) % 16 = n / 4096 := by omega
  have e2 : (0x80 + n / 64 % 64) % 64 = n / 64 % 64 := by omega
  have hlo : (if 0xE0 + n / 4096 = 0xE0 then (0xA0 : Nat) else 0x80) ≤
      0x80 + n / 64 % 64 := by
    split_ifs with h <;> omega
  have hhi : 0x80 + n / 64 % 64 ≤
      (if 0xE0 + n / 4096 = 0xED then (0x9F : Nat) else 0xBF) := by
    split_ifs with h <;> omega
  have hs2 : utf8Step ⟨n / 4096, 2, 0,
      if 0xE0 + n / 4096 = 0xE0 then 0xA0 else 0x80,
      if 0xE0 + n / 4096 = 0xED then 0x9F else 0xBF⟩ (0x80 + n / 64 % 64) =
      ([], ⟨n / 4096 * 64 + n / 64 % 64, 2, 1, 0x80, 0xBF⟩) := by
    rw [utf8Step_cont (n / 4096) 2 0 _ _ (0x80 + n / 64 % 64) (by omega) hlo hhi,
      if_neg (by omega), e2]
  simp only [utf8DecodeBytes, utf8Step_init,
    utf8StepFresh_lead3 (0xE0 + n / 4096) (by omega) (by omega), e1, hs2,
    List.append_nil, List.nil_append]

lemma utf8DecodeTake1_4 (n : Nat) (h1 : 0x10000 ≤ n) (h2 : n ≤ 0x10FFFF) :
    utf8DecodeBytes DecoderState.init [0xF0 + n / 262144] =
      ([], ⟨n / 262144, 3, 0,
        if 0xF0 + n / 262144 = 0xF0 then 0x90 else 0x80,
        if 0xF0 + n / 262144 = 0xF4 then 0x8F else 0xBF⟩) := by
  have e1 : (0xF0 + n / 262144) % 8 = n / 262144 := by omega
  simp only [utf8DecodeBytes, utf8Step_init,
    utf8StepFresh_lead4 (0xF0 + n / 262144) (by omega) (by omega), e1,
    List.append_nil, List.nil_append]

lemma utf8DecodeTake2_4 (n : Nat) (h1 : 0x10000 ≤ n) (h2 : n ≤ 0x10FFFF) :
    utf8DecodeBytes DecoderState.init [0xF0 + n / 262144, 0x80 + n / 4096 % 64] =
      ([], ⟨n / 262144 * 64 + n / 4096 % 64, 3, 1, 0x80, 0xBF⟩) := by
  have e1 : (0xF0 + n / 262144) % 8 = n / 262144 := by omega
  have e2 : (0x80 + n / 4096 % 64) % 64 = n / 4096 % 64 := by omega
  have hlo : (if 0xF0 + n / 262144 = 0xF0 then (0x90 : Nat) else 0x80) ≤
      0x80 + n / 4096 % 64 := by
    split_ifs with h <;> omega
  have hhi : 0x80 + n / 4096 % 64 ≤
      (if 0xF0 + n / 262144 = 0xF4 then (0x8F : Nat) else 0xBF) := by
    split_ifs with h <;> omega
  have hs2 : utf8Step ⟨n / 262144, 3, 0,
      if 0xF0 + n / 262144 = 0xF0 then 0x90 else 0x80,
      if 0xF0 + n / 262144 = 0xF4 then 0x8F else 0xBF⟩ (0x80 + n / 4096 % 64) =
      ([], ⟨n / 262144 * 64 + n / 4096 % 64, 3, 1, 0x80, 0xBF⟩) := by
    rw [utf8Step_cont (n / 262144) 3 0 _ _ (0x80 + n / 4096 % 64) (by omega) hlo hhi,
      if_neg (by omega), e2]
  simp only [utf8DecodeBytes, utf8Step_init,
    utf8StepFresh_lead4 (0xF0 + n / 262144) (by omega) (by omega), e1, hs2,
    List.append_nil, List.nil_append]

lemma utf8DecodeTake3_4 (n : Nat) (h1 : 0x10000 ≤ n) (h2 : n ≤ 0x10FFFF) :
    utf8DecodeBytes DecoderState.init
        [0xF0 + n / 262144, 0x80 + n / 4096 % 64, 0x80 + n / 64 % 64] =
      ([], ⟨(n / 262144 * 64 + n / 4096 % 64) * 64 + n / 64 % 64, 3, 2, 0x80, 0xBF⟩) := by
  have e3 : (0x80 + n / 64 % 64) % 64 = n / 64 % 64 := by omega
  have hs3 : utf8Step ⟨n / 262144 * 64 + n / 4096 % 64, 3, 1, 0x80, 0xBF⟩
      (0x80 + n / 64 % 64) =
      ([], ⟨(n / 262144 * 64 + n / 4096 % 64) * 64 + n / 64 % 64, 3, 2, 0x80, 0xBF⟩) := by
    rw [utf8Step_cont (n / 262144 * 64 + n / 4096 % 64) 3 1 0x80 0xBF
      (0x80 + n / 64 % 64) (by omega) (by omega) (by omega), if_neg (by omega), e3]
  have hsplit : ([0xF0 + n / 262144, 0x80 + n / 4096 % 64, 0x80 + n / 64 % 64] :
      List Nat) = [0xF0 + n / 262144, 0x80 + n / 4096 % 64] ++ [0x80 + n / 64 % 64] := rfl
  rw [hsplit, utf8DecodeBytes_append, utf8DecodeTake2_4 n h1 h2]
  simp only [utf8DecodeBytes, hs3, List.append_nil, List.nil_append]

lemma take_one_two (a b : Nat) : List.take 1 [a, b] = [a] := rfl

lemma take_one_three (a b c : Nat) : List.take 1 [a, b, c] = [a] := rfl

lemma take_two_three (a b c : Nat) : List.take 2 [a, b, c] = [a, b] := rfl

lemma take_one_four (a b c d : Nat) : List.take 1 [a, b, c, d] = [a] := rfl

lemma take_two_four (a b c d : Nat) : List.take 2 [a, b, c, d] = [a, b] := rfl

lemma take_three_four (a b c d : Nat) : List.take 3 [a, b, c, d] = [a, b, c] := rfl

lemma utf8Decode_encodeChar_take (c : Char) (k : Nat) (hk1 : 0 < k)
    (hk2 : k < (utf8EncodeChar c).length) :
    (utf8DecodeBytes DecoderState.init ((utf8EncodeChar c).take k)).1 = [] ∧
      (utf8DecodeBytes DecoderState.init ((utf8EncodeChar c).take k)).2.bytesNeeded ≠ 0 := by
  have hv : c.toNat < 0xD800 ∨ (0xDFFF < c.toNat ∧ c.toNat < 0x110000) := c.valid
  by_cases h1 : c.toNat ≤ 0x7F
  · have he : utf8EncodeChar c = [c.toNat] := by
      unfold utf8EncodeChar
      rw [if_pos h1]
    rw [he] at hk2
    simp at hk2
    omega
  · by_cases h2 : c.toNat ≤ 0x7FF
    · have he : utf8EncodeChar c = [0xC0 + c.toNat / 64, 0x80 + c.toNat % 64] := by
        unfold utf8EncodeChar
        rw [if_neg h1, if_pos h2]
      rw [he] at hk2 ⊢
      have hk : k = 1 := by
        simp at hk2
        omega
      subst hk
      rw [take_one_two, utf8DecodeTake1_2 c.toNat (by omega) h2]
      exact ⟨rfl, by simp⟩
    · by_cases h3 : c.toNat ≤ 0xFFFF
      · have he : utf8EncodeChar c =
            [0xE0 + c.toNat / 4096, 0x80 + c.toNat / 64 % 64, 0x80 + c.toNat % 64] := by
          unfold utf8EncodeChar
          rw [if_neg h1, if_neg h2, if_pos h3]
        rw [he] at hk2 ⊢
        have hk : k = 1 ∨ k = 2 := by
          simp at hk2
          omega
        rcases hk with hk | hk <;> subst hk
        · rw [take_one_three, utf8DecodeTake1_3 c.toNat (by omega) h3]
          exact ⟨rfl, by simp⟩
        · rw [take_two_three, utf8DecodeTake2_3 c.toNat (by omega) h3 (by omega)]
          exact ⟨rfl, by simp⟩
      · have he : utf8EncodeChar c =
            [0xF0 + c.toNat / 262144, 0x80 + c.toNat / 4096 % 64,
              0x80 + c.toNat / 64 % 64, 0x80 + c.toNat % 64] := by
          unfold utf8EncodeChar
          rw [if_neg h1, if_neg h2, if_neg h3]
        rw [he] at hk2 ⊢
        have hk : k = 1 ∨ k = 2 ∨ k = 3 := by
          simp at hk2
          omega
        rcases hk with hk | hk | hk <;> subst hk
        · rw [take_one_four, utf8DecodeTake1_4 c.toNat (by omega) (by omega)]
          exact ⟨rfl, by simp⟩
        · rw [take_two_four, utf8DecodeTake2_4 c.toNat (by omega) (by omega)]
          exact ⟨rfl, by simp⟩
        · rw [take_three_four, utf8DecodeTake3_4 c.toNat (by omega) (by omega)]
          exact ⟨rfl, by simp⟩

lemma pumpStreamOps_allOk (st : DecoderState) (chunks : List (List Nat)) (i : Nat) :
    pumpStreamOps st chunks i (fun _ => true) =
      (decodeChunkTexts st chunks).map (fun t => SinkOp.write (outboundEvent t)) := by
  induction chunks generalizing st i with
  | nil => rfl
  | cons v rest ih => simp [pumpStreamOps, decodeChunkTexts, ih]

lemma pumpStreamOps_writes (st : DecoderState) (chunks : List (List Nat)) (i : Nat)
    (writeOk : Nat → Bool) :
    ∀ op ∈ pumpStreamOps st chunks i writeOk, ∃ e, op = SinkOp.write e := by
  induction chunks generalizing st i with
  | nil =>
    intro op hop
    simp [pumpStreamOps] at hop
  | cons v rest ih =>
    intro op hop
    simp only [pumpStreamOps] at hop
    split at hop
    · rcases List.mem_cons.mp hop with h | h
      · exact ⟨_, h⟩
      · exact ih _ _ _ h
    · simp at hop

lemma producerOps_writes (resp : AIResponse) (endB : ReadEnd) (writeOk : Nat → Bool) :
    ∀ op ∈ producerOps resp endB writeOk, ∃ e, op = SinkOp.write e := by
  intro op hop
  cases resp with
  | stream chunks => exact pumpStreamOps_writes _ _ _ _ op hop
  | wholeString s =>
    simp only [producerOps] at hop
    split at hop
    · rcases List.mem_cons.mp hop with h | h
      · exact ⟨_, h⟩
      · simp at h
    · simp at hop
  | wholeOther ser =>
    simp only [producerOps] at hop
    split at hop
    · rcases List.mem_cons.mp hop with h | h
      · exact ⟨_, h⟩
      · simp at h
    · simp at hop

lemma join_append_empty (l : List String) : String.join (l ++ [""]) = String.join l := by
  simp [String.join_eq]

lemma traceBody_write_events (events : List String) :
    traceBody (events.map SinkOp.write ++ [SinkOp.close]) = String.join events := by
  simp only [traceBody, List.map_append, List.map_map]
  have h1 : (fun op => match op with | SinkOp.write e => e | SinkOp.close => "") ∘
      SinkOp.write = id := rfl
  rw [h1, List.map_id]
  have h2 : List.map (fun op => match op with | SinkOp.write e => e | SinkOp.close => "")
      [SinkOp.close] = [""] := rfl
  rw [h2, join_append_empty]

lemma traceBody_stream_allOk (chunks : List (List Nat)) (endB : ReadEnd) :
    traceBody (producerTrace (AIResponse.stream chunks) endB (fun _ => true)) =
      String.join ((decodeChunkTexts DecoderState.init chunks).map outboundEvent) := by
  show traceBody (pumpStreamOps DecoderState.init chunks 0 (fun _ => true) ++ [SinkOp.close]) = _
  rw [pumpStreamOps_allOk]
  have : (decodeChunkTexts DecoderState.init chunks).map
      (fun t => SinkOp.write (outboundEvent t)) =
      ((decodeChunkTexts DecoderState.init chunks).map outboundEvent).map SinkOp.write := by
    rw [List.map_map]
    rfl
  rw [this, traceBody_write_events]

lemma userMessages_eq_specFiltered (C : List ChatMessage) :
    userMessages C = specFiltered C := by
  simp only [userMessages, specFiltered]
  congr 1
  funext m
  by_cases h : m.role = "system" <;> simp [h]

/-- C1: for every stream-variant provider output yielding a finite sequence
of chunks (all writes resolving), the response body written to the sink is
the in-order concatenation of one newline-terminated JSON object
`\x7b"response": <decoded chunk text>\x7d` per chunk — no reordering, loss,
or extra writes; in particular, for the chunks `["Hel", "lo"]` the body is
exactly `\x7b"response":"Hel"\x7d\n\x7b"response":"lo"\x7d\n`. -/
theorem stream_chunks_relayed_in_order :
    (∀ (chunks : List (List Nat)) (endB : ReadEnd),
        traceBody (producerTrace (AIResponse.stream chunks) endB (fun _ => true)) =
          String.join ((decodeChunkTexts DecoderState.init chunks).map outboundEvent)) ∧
      traceBody (producerTrace (AIResponse.stream [utf8Encode "Hel", utf8Encode "lo"])
          ReadEnd.done (fun _ => true)) =
        "\x7b\"response\":\"Hel\"\x7d\n\x7b\"response\":\"lo\"\x7d\n" := by
  refine ⟨traceBody_stream_allOk, ?_⟩
  decide

/-- C2: the input forwarded to the inference provider is the caller's
conversation with every
`role = "system"` message removed, in the spec's sense
`[m for m in C if m.role != system]` (order preserved), and the forwarded
`instructions` field is the fixed `SYSTEM_PROMPT` constant, never
caller-supplied content. -/
theorem system_messages_filtered_instructions_fixed :
    (∀ C : List ChatMessage, userMessages C = specFiltered C) ∧
      ∀ (C : List ChatMessage) (provider : InferenceRequest → Except String AIResponse)
        (endB : ReadEnd) (writeOk : Nat → Bool),
        (handleChatRequest (Except.ok (some C)) provider endB writeOk).providerCalls =
          [⟨MODEL_ID, SYSTEM_PROMPT, specFiltered C, true⟩] := by
  refine ⟨userMessages_eq_specFiltered, ?_⟩
  intro C provider endB writeOk
  have hreq : chatInferenceRequest C = ⟨MODEL_ID, SYSTEM_PROMPT, specFiltered C, true⟩ := by
    rw [chatInferenceRequest, userMessages_eq_specFiltered]
  rcases hp : provider (chatInferenceRequest C) with e | r <;>
    rw [hreq] at hp <;> simp [handleChatRequest, hreq, hp]

/-- C3: on every exit path of the producer task — normal exhaustion of the
stream variant, the single whole-variant write, or an exception while
reading or writing (any `endB`, any `writeOk`) — the sink trace is a list of
writes followed by exactly one terminal `close`: the sink is closed exactly
once and nothing is written after it is closed. -/
theorem sink_closed_once_on_every_path :
    ∀ (resp : AIResponse) (endB : ReadEnd) (writeOk : Nat → Bool),
      (∃ ws, producerTrace resp endB writeOk = ws ++ [SinkOp.close] ∧
        ∀ op ∈ ws, ∃ e, op = SinkOp.write e) ∧
      (producerTrace resp endB writeOk).count SinkOp.close = 1 := by
  intro resp endB writeOk
  have hw := producerOps_writes resp endB writeOk
  constructor
  · exact ⟨_, rfl, hw⟩
  · rw [producerTrace, List.count_append]
    have hz : (producerOps resp endB writeOk).count SinkOp.close = 0 := by
      rw [List.count_eq_zero]
      intro hmem
      rcases hw _ hmem with ⟨e, he⟩
      exact SinkOp.noConfusion he
    rw [hz]
    rfl

/-- C4: for a request body that fails to parse, and for a provider call that
raises before returning output, the handler returns (rather than
propagating) a response with status 500, content-type `application/json`,
and a JSON body with exactly the keys `error` and `details`. -/
theorem prestream_failures_return_500_json :
    (∀ (e : String) (provider : InferenceRequest → Except String AIResponse)
        (endB : ReadEnd) (writeOk : Nat → Bool),
        (handleChatRequest (Except.error e) provider endB writeOk).response =
          ⟨500, jsonObject [("error", "Failed to process request"), ("details", e)],
            [("content-type", "application/json")]⟩) ∧
      ∀ (mopt : Option (List ChatMessage))
        (provider : InferenceRequest → Except String AIResponse)
        (endB : ReadEnd) (writeOk : Nat → Bool) (e : String),
        provider (chatInferenceRequest (mopt.getD [])) = Except.error e →
        (handleChatRequest (Except.ok mopt) provider endB writeOk).response =
          ⟨500, jsonObject [("error", "Failed to process request"), ("details", e)],
            [("content-type", "application/json")]⟩ := by
  constructor
  · intro e provider endB writeOk
    rfl
  · intro mopt provider endB writeOk e hp
    simp [handleChatRequest, hp, errorResponse, errorBody]

/-- C4 witness: a provider that raises `"AI binding failed"` yields the
concrete 500 JSON error response. -/
theorem prestream_failures_return_500_json_witness :
    (handleChatRequest (Except.ok (some []))
        (fun _ => Except.error "AI binding failed") ReadEnd.done (fun _ => true)).response =
      ⟨500, jsonObject [("error", "Failed to process request"),
        ("details", "AI binding failed")], [("content-type", "application/json")]⟩ :=
  prestream_failures_return_500_json.2 (some [])
    (fun _ => Except.error "AI binding failed") ReadEnd.done (fun _ => true)
    "AI binding failed" rfl

/-- C5: for every whole-variant provider output, exactly one event is
written and then the sink is closed; a string `s` is wrapped as
`\x7b"response": s\x7d` plus newline (for `"Hi there"` exactly
`\x7b"response":"Hi there"\x7d\n`), and a non-string value is wrapped the
same way around its serialization text. -/
theorem whole_variant_single_write :
    (∀ (s : String) (endB : ReadEnd),
        producerTrace (AIResponse.wholeString s) endB (fun _ => true) =
          [SinkOp.write (outboundEvent s), SinkOp.close]) ∧
      (∀ (ser : String) (endB : ReadEnd),
        producerTrace (AIResponse.wholeOther ser) endB (fun _ => true) =
          [SinkOp.write (outboundEvent ser), SinkOp.close]) ∧
      traceBody (producerTrace (AIResponse.wholeString "Hi there") ReadEnd.done
          (fun _ => true)) = "\x7b\"response\":\"Hi there\"\x7d\n" := by
  refine ⟨fun s endB => rfl, fun ser endB => rfl, ?_⟩
  decide

/-- C6: for every valid UTF-8 byte sequence (the encoding of a string `s`)
and every partition of it into chunks — including partitions splitting a
multi-byte character across a boundary — the concatenation of the per-chunk
decoded texts equals `s`, the decoding of the whole sequence: the decoder
retains partial-sequence state between chunk decodes. -/
theorem chunked_decode_concats_to_whole :
    ∀ (s : String) (chunks : List (List Nat)),
      chunks.flatten = utf8Encode s →
      String.join (decodeChunkTexts DecoderState.init chunks) = s := by
  intro s chunks h
  rw [join_decodeChunkTexts, h, utf8Decode_utf8Encode]

/-- C6 witness: the encoding of `"é"` split in the middle of its two-byte
character still decodes, chunkwise, to `"é"`. -/
theorem chunked_decode_concats_to_whole_witness :
    ([[0xC3], [0xA9]] : List (List Nat)).flatten = utf8Encode "é" ∧
      String.join (decodeChunkTexts DecoderState.init [[0xC3], [0xA9]]) = "é" :=
  ⟨by decide, chunked_decode_concats_to_whole "é" [[0xC3], [0xA9]] (by decide)⟩

/-- C7: when the `messages` field is absent or the empty list, the handler
still issues exactly one provider call whose input is the empty conversation
(the default), and does not fail solely because of emptiness: with a
succeeding provider the response status is 200. -/
theorem empty_conversation_still_calls_provider :
    ∀ (provider : InferenceRequest → Except String AIResponse)
      (endB : ReadEnd) (writeOk : Nat → Bool),
      ((handleChatRequest (Except.ok none) provider endB writeOk).providerCalls =
          [⟨MODEL_ID, SYSTEM_PROMPT, [], true⟩]) ∧
      ((handleChatRequest (Except.ok (some [])) provider endB writeOk).providerCalls =
          [⟨MODEL_ID, SYSTEM_PROMPT, [], true⟩]) ∧
      ∀ resp : AIResponse,
        provider ⟨MODEL_ID, SYSTEM_PROMPT, [], true⟩ = Except.ok resp →
        (handleChatRequest (Except.ok none) provider endB writeOk).response.status = 200 := by
  intro provider endB writeOk
  have hreq : chatInferenceRequest [] = ⟨MODEL_ID, SYSTEM_PROMPT, [], true⟩ := rfl
  refine ⟨?_, ?_, ?_⟩
  · rcases hp : provider ⟨MODEL_ID, SYSTEM_PROMPT, [], true⟩ with e | r <;>
      simp [handleChatRequest, hreq, hp]
  · rcases hp : provider ⟨MODEL_ID, SYSTEM_PROMPT, [], true⟩ with e | r <;>
      simp [handleChatRequest, hreq, hp]
  · intro resp hp
    simp [handleChatRequest, hreq, hp, streamResponse]

/-- C7 witness: with `messages` absent and a provider answering
`"Hi"`, the provider is called with empty input and the response status
is 200. -/
theorem empty_conversation_still_calls_provider_witness :
    ((handleChatRequest (Except.ok none)
        (fun _ => Except.ok (AIResponse.wholeString "Hi")) ReadEnd.done
        (fun _ => true)).providerCalls = [⟨MODEL_ID, SYSTEM_PROMPT, [], true⟩]) ∧
      (handleChatRequest (Except.ok none)
        (fun _ => Except.ok (AIResponse.wholeString "Hi")) ReadEnd.done
        (fun _ => true)).response.status = 200 :=
  ⟨(empty_conversation_still_calls_provider
      (fun _ => Except.ok (AIResponse.wholeString "Hi")) ReadEnd.done (fun _ => true)).1,
    (empty_conversation_still_calls_provider
      (fun _ => Except.ok (AIResponse.wholeString "Hi")) ReadEnd.done (fun _ => true)).2.2
      (AIResponse.wholeString "Hi") rfl⟩

/-- C8: any non-POST method on `/api/chat` yields status 405 with plain-text
body `"Method not allowed"` without any body processing (`workerFetch` never
returns the `.chat` delegation there), and any request, whatever the method,
to a path starting with `/api/` other than `/api/chat` yields status 404
with plain-text body `"Not found"`. -/
theorem routing_405_and_404 :
    (∀ method : String, method ≠ "POST" →
        workerFetch method "/api/chat" =
          FetchResult.response ⟨405, "Method not allowed", []⟩) ∧
      ∀ (method pathname : String),
        strStartsWith pathname "/api/" = true → pathname ≠ "/api/chat" →
        workerFetch method pathname = FetchResult.response ⟨404, "Not found", []⟩ := by
  constructor
  · intro method hm
    unfold workerFetch
    rw [if_neg (by decide), if_pos rfl, if_neg hm]
  · intro method pathname h1 h2
    have hp : pathname ≠ "/" := by
      rintro rfl
      exact absurd h1 (by decide)
    unfold workerFetch
    rw [if_neg (by simp [h1, hp]), if_neg h2]

/-- C8 witness: `GET /api/chat` is 405 and `POST /api/unknown` is 404. -/
theorem routing_405_and_404_witness :
    workerFetch "GET" "/api/chat" = FetchResult.response ⟨405, "Method not allowed", []⟩ ∧
      workerFetch "POST" "/api/unknown" = FetchResult.response ⟨404, "Not found", []⟩ :=
  ⟨routing_405_and_404.1 "GET" (by decide),
    routing_405_and_404.2 "POST" "/api/unknown" (by decide) (by decide)⟩

/-- C9: if the bytes of a stream-variant output form the encoding of `s`
followed by a proper nonempty prefix of one more character's encoding (an
incomplete trailing multi-byte sequence), the decoded response text is
exactly `s`: the trailing bytes are silently dropped — held in the
never-flushed decoder state — with no replacement character emitted, and the
body is still the per-chunk event concatenation. -/
theorem trailing_incomplete_utf8_dropped :
    ∀ (s : String) (c : Char) (k : Nat) (chunks : List (List Nat)),
      0 < k → k < (utf8EncodeChar c).length →
      chunks.flatten = utf8Encode s ++ (utf8EncodeChar c).take k →
      String.join (decodeChunkTexts DecoderState.init chunks) = s ∧
        traceBody (producerTrace (AIResponse.stream chunks) ReadEnd.done (fun _ => true)) =
          String.join ((decodeChunkTexts DecoderState.init chunks).map outboundEvent) := by
  intro s c k chunks hk1 hk2 hflat
  refine ⟨?_, traceBody_stream_allOk chunks ReadEnd.done⟩
  rw [join_decodeChunkTexts, hflat]
  simp only [utf8DecodeBytes_append, utf8Decode_utf8Encode]
  rw [(utf8Decode_encodeChar_take c k hk1 hk2).1]
  simp

/-- C9 witness: the chunk `[0x41, 0xC3]` — `"A"` followed by the first byte
of `"é"` — decodes to just `"A"`; the `0xC3` byte is dropped. -/
theorem trailing_incomplete_utf8_dropped_witness :
    (0 < 1 ∧ 1 < (utf8EncodeChar 'é').length ∧
      ([[0x41, 0xC3]] : List (List Nat)).flatten =
        utf8Encode "A" ++ (utf8EncodeChar 'é').take 1) ∧
      String.join (decodeChunkTexts DecoderState.init [[0x41, 0xC3]]) = "A" :=
  ⟨⟨by decide, by decide, by decide⟩,
    (trailing_incomplete_utf8_dropped "A" 'é' 1 [[0x41, 0xC3]]
      (by decide) (by decide) (by decide)).1⟩

/-- C10: every message whose role is not exactly `"system"` passes the
filter unchanged and unvalidated — the filtered input is a sublist of the
caller's messages containing each non-system message as-is, including roles
outside the declared enum such as `"tool"` or arbitrary strings. -/
theorem non_system_roles_forwarded_unvalidated :
    (∀ (msgs : List ChatMessage) (m : ChatMessage),
        m ∈ msgs → m.role ≠ "system" → m ∈ (chatInferenceRequest msgs).input) ∧
      (∀ msgs : List ChatMessage, List.Sublist (chatInferenceRequest msgs).input msgs) ∧
      (chatInferenceRequest
          [⟨"tool", "call"⟩, ⟨"system", "override"⟩, ⟨"banana", "why"⟩]).input =
        [⟨"tool", "call"⟩, ⟨"banana", "why"⟩] := by
  refine ⟨?_, ?_, by decide⟩
  · intro msgs m hmem hne
    simp [chatInferenceRequest, userMessages, List.mem_filter, hmem, hne]
  · intro msgs
    exact List.filter_sublist _

/-- C10 witness: a message with the out-of-enum role `"tool"` is forwarded
to the provider. -/
theorem non_system_roles_forwarded_unvalidated_witness :
    ChatMessage.mk "tool" "call" ∈
      (chatInferenceRequest [⟨"tool", "call"⟩]).input :=
  non_system_roles_forwarded_unvalidated.1 [⟨"tool", "call"⟩] ⟨"tool", "call"⟩
    (by decide) (by decide)

end CfChat
